import Mathlib

/-!
Shallow embedding of `semantic-machines/v-common-onto`:

* `src/onto/turtle_formatters_with_prefixes.rs` — a stateful Turtle-like
  triple writer (`TurtleFormatterWithPrefixes`) with per-character literal
  escaping (`EscapeRDF`) and sorted prefix emission (`write_prefixes`).
* `src/onto/parser.rs` — the binary-format dispatcher (`parse_raw`,
  `parse_to_predicate`).

The byte sink (`std::io::Write`) is modelled by `Sink`: a string accumulator
with an optional fault-injection budget (`failAt`), so that `IoError`
propagation and partial-write behaviour are observable. Each `write!` /
`writeln!` / `write_all` call in the source is one `Sink.write` of the fully
formatted chunk; the per-character writes performed by `fmt_object` through
`escape(value).try_for_each(|c| write!(f, "{}", c))` are modelled one
character at a time, as in the source. External decode collaborators
(`parse_msgpack`, `parse_cbor`, `parse_msgpack_to_predicate`,
`parse_cbor_to_predicate` from `crate::msgpack2individual` /
`crate::cbor2individual`) are universally-quantified parameters, typed by
their contracts in the source.
-/

namespace VOnto

/-! ### Data model (rio_api::model, restricted to the fields the writer reads) -/

/-- `NamedOrBlankNode<'a>`: a subject. Rust's derived `PartialEq` equates two
nodes iff they are the same variant with equal strings, which is exactly the
derived `DecidableEq` here. -/
inductive NamedOrBlankNode where
  | NamedNode (iri : String)
  | BlankNode (id : String)
deriving DecidableEq, Repr

/-- `Literal<'a>`: `datatype` is a `NamedNode`, of which only `.iri` is ever
read, so it is carried as the IRI string. -/
inductive Literal where
  | Simple (value : String)
  | LanguageTaggedString (value : String) (language : String)
  | Typed (value : String) (datatype : String)
deriving DecidableEq, Repr

/-- `Term<'a>`: an object position. -/
inductive Term where
  | NamedNode (iri : String)
  | BlankNode (id : String)
  | Literal (l : Literal)
deriving DecidableEq, Repr

/-- `Triple<'a>`: the predicate is a `NamedNode`, of which only `.iri` is ever
read, so it is carried as the IRI string. -/
structure Triple where
  subject : NamedOrBlankNode
  predicate : String
  object : Term
deriving DecidableEq, Repr

/-- `NamedOrBlankNodeType` (turtle_formatters_with_prefixes.rs, lines 7-11). -/
inductive NamedOrBlankNodeType where
  | NamedNode
  | BlankNode
deriving DecidableEq, Repr

/-- `NamedOrBlankNodeType::with_value` (lines 13-26). -/
def NamedOrBlankNodeType.with_value : NamedOrBlankNodeType → String → NamedOrBlankNode
  | .NamedNode, v => .NamedNode v
  | .BlankNode, v => .BlankNode v

/-! ### The byte sink -/

/-- The underlying `W: Write`. `out` is everything written so far, as the
character sequence of the UTF-8 text; `failAt` injects an `io::Error`
carrying `errMsg`: `some 0` makes the next write fail, `some (n+1)` allows
`n+1` further successful writes, `none` never fails. -/
structure Sink where
  out : List Char
  failAt : Option Nat
  errMsg : String
deriving DecidableEq, Repr

/-- One `write!`/`writeln!`/`write_all` call: returns the sink after the call
together with `Ok(())` or the propagated `io::Error`. On failure no bytes are
appended and the error is the sink's own `errMsg`, unmodified. -/
def Sink.write (s : Sink) (txt : String) : Sink × Except String Unit :=
  match s.failAt with
  | some 0 => (s, .error s.errMsg)
  | some (n + 1) => ({ s with out := s.out ++ txt.data, failAt := some n }, .ok ())
  | none => ({ s with out := s.out ++ txt.data }, .ok ())

/-- Sequencing of fallible writes: the `?` operator. The partially written
sink is kept on failure (bytes already written stay in the sink). -/
def andThen (r : Sink × Except String Unit) (k : Sink → Sink × Except String Unit) :
    Sink × Except String Unit :=
  match r with
  | (s, .ok _) => k s
  | (s, .error e) => (s, .error e)

/-! ### EscapeRDF (lines 112-176) -/

/-- `EscapeRdfState` (lines 121-125). The source's `Char` variant is `Chr`
here, since `Char` would shadow the character type inside this namespace. -/
inductive EscapeRdfState where
  | Done
  | Chr (c : Char)
  | Backslash (c : Char)
deriving DecidableEq, Repr

/-- `EscapeRDF::new` (lines 127-139): the initial iterator state for one
input character. -/
def EscapeRDF.new (c : Char) : EscapeRdfState :=
  if c = '\n' then .Backslash 'n'
  else if c = '\r' then .Backslash 'r'
  else if c = '"' then .Backslash '"'
  else if c = '\\' then .Backslash '\\'
  else .Chr c

/-- One `Iterator::next` step (lines 144-156): the yielded character (if any)
and the successor state. -/
def EscapeRdfState.next : EscapeRdfState → Option Char × EscapeRdfState
  | .Backslash c => (some '\\', .Chr c)
  | .Chr c => (some c, .Done)
  | .Done => (none, .Done)

/-- The full output of the iterator from a given state: `Backslash c` yields
`'\\'` then steps to `Chr c`, which yields `c` then steps to `Done`. -/
def EscapeRdfState.toList : EscapeRdfState → List Char
  | .Done => []
  | .Chr c => [c]
  | .Backslash c => ['\\', c]

/-- `ExactSizeIterator::len` (lines 168-176). -/
def EscapeRdfState.len : EscapeRdfState → Nat
  | .Done => 0
  | .Chr _ => 1
  | .Backslash _ => 2

/-- `escape` (lines 112-114): `s.chars().flat_map(EscapeRDF::new)`. -/
def escape (s : String) : List Char :=
  s.data.flatMap fun c => (EscapeRDF.new c).toList

/-! ### fmt_object (lines 178-213) -/

/-- The per-character write loop
`escape(value).try_for_each(|c| write!(f, "{}", c))`: one `write!` per output
character, aborting at the first `io::Error`. -/
def writeChars (f : Sink) : List Char → Sink × Except String Unit
  | [] => (f, .ok ())
  | c :: cs =>
    match f.write (String.singleton c) with
    | (f', .ok _) => writeChars f' cs
    | (f', .error e) => (f', .error e)

/-- `fmt_object` (lines 178-213): renders one object term into the sink. -/
def fmt_object (o : Term) (f : Sink) : Sink × Except String Unit :=
  match o with
  | .NamedNode iri => f.write iri
  | .BlankNode id => f.write id
  | .Literal (.Simple value) =>
    andThen (f.write "\"") fun f1 =>
    andThen (writeChars f1 (escape value)) fun f2 =>
    f2.write "\""
  | .Literal (.LanguageTaggedString value language) =>
    andThen (f.write "\"") fun f1 =>
    andThen (writeChars f1 (escape value)) fun f2 =>
    f2.write ("\"@" ++ language)
  | .Literal (.Typed value datatype) =>
    andThen (f.write "\"") fun f1 =>
    andThen (writeChars f1 (escape value)) fun f2 =>
    f2.write ("\"^^" ++ datatype)

/-! ### TurtleFormatterWithPrefixes (lines 30-110) -/

/-- `TurtleFormatterWithPrefixes<W>` (lines 30-35). -/
structure TurtleFormatterWithPrefixes where
  write : Sink
  current_subject : String
  current_subject_type : Option NamedOrBlankNodeType
  current_predicate : String
deriving DecidableEq, Repr

/-- One prefix declaration line, with its `writeln!` newline (line 54):
`@prefix <name>: <<iri>> .` followed by a newline.
`prefixes.get(prefix).unwrap()` cannot fail in the source, because both the
keys and the lookups come from the same `HashMap`; the `.getD ""` default is
likewise never taken when `k` is a key of `prefixes`. -/
def prefixLineText (prefixes : List (String × String)) (k : String) : String :=
  "@prefix " ++ k ++ ": <" ++ ((prefixes.lookup k).getD "") ++ "> .\n"

/-- Byte order on UTF-8 strings, one code point at a time. UTF-8 byte order
coincides with code-point order, so this is exactly the `Ord` ordering
Rust's `keys.sort()` uses on `String`. -/
def charListLe : List Char → List Char → Bool
  | [], _ => true
  | _ :: _, [] => false
  | a :: as, b :: bs =>
    if a.toNat < b.toNat then true
    else if b.toNat < a.toNat then false
    else charListLe as bs

/-- Rust's `String` ordering: lexicographic byte order of the UTF-8 text. -/
def stringByteLe (a b : String) : Bool :=
  charListLe a.data b.data

/-- The sorted key list of lines 51-52: `keys.sort()`, ascending in Rust's
byte order on `String`. -/
def sortedKeys (prefixes : List (String × String)) : List String :=
  List.insertionSort (fun a b => stringByteLe a b = true) (prefixes.map Prod.fst)

/-- `write_prefixes`'s loop body (lines 53-55): one `writeln!` per sorted
key. -/
def writePrefixLines (f : Sink) (prefixes : List (String × String)) :
    List String → Sink × Except String Unit
  | [] => (f, .ok ())
  | k :: ks =>
    match f.write (prefixLineText prefixes k) with
    | (f', .ok _) => writePrefixLines f' prefixes ks
    | (f', .error e) => (f', .error e)

/-- `write_prefixes` (lines 50-58). The `HashMap<String, String>` is carried
as an association list with unique keys; its iteration order is arbitrary (as
a `HashMap`'s is), and the source sorts the collected keys before emitting.
Ends with the bare `writeln!` producing the blank line. -/
def write_prefixes (f : Sink) (prefixes : List (String × String)) :
    Sink × Except String Unit :=
  andThen (writePrefixLines f prefixes (sortedKeys prefixes)) fun f' => f'.write "\n"

/-- `TurtleFormatterWithPrefixes::new` (lines 39-48). Note
`f.write_prefixes(prefixes).unwrap_or_default()`: the `Result` of the prefix
emission is discarded, so an `io::Error` raised while writing the prefix
block never reaches the caller of `new`; the sink keeps whatever was written
before the failure. -/
def TurtleFormatterWithPrefixes.new (write : Sink) (prefixes : List (String × String)) :
    TurtleFormatterWithPrefixes :=
  let f : TurtleFormatterWithPrefixes :=
    { write := write
      current_subject := ""
      current_subject_type := none
      current_predicate := "" }
  { f with write := (write_prefixes f.write prefixes).1 }

/-- `TurtleFormatterWithPrefixes::finish` (lines 61-66): `self` is consumed;
on success the sink is handed back in the `Ok`. The first component is the
physical sink (whose bytes persist even when the `Err` case drops the
handle). -/
def TurtleFormatterWithPrefixes.finish (f : TurtleFormatterWithPrefixes) :
    Sink × Except String Sink :=
  if f.current_subject_type.isSome then
    match f.write.write " .\n" with
    | (sk, .ok _) => (sk, .ok sk)
    | (sk, .error e) => (sk, .error e)
  else
    (f.write, .ok f.write)

/-- The subject's raw string, `s` in the source (lines 73-76). -/
def subjectStr : NamedOrBlankNode → String
  | .NamedNode n => n
  | .BlankNode n => n

/-- The subject's variant, as stored in `current_subject_type` (lines 95-104). -/
def subjectKind : NamedOrBlankNode → NamedOrBlankNodeType
  | .NamedNode _ => .NamedNode
  | .BlankNode _ => .BlankNode

/-- The branch of `format` that writes everything before the object (lines
73-91): the separator choice between `, `, ` ;`, ` .` plus, where needed,
the subject and predicate text. -/
def formatHead (f : TurtleFormatterWithPrefixes) (triple : Triple) :
    Sink × Except String Unit :=
  match f.current_subject_type with
  | some current_subject_type =>
    if current_subject_type.with_value f.current_subject = triple.subject then
      if f.current_predicate = triple.predicate then
        f.write.write ", "
      else
        f.write.write (" ;\n  " ++ triple.predicate ++ " ")
    else
      f.write.write
        (" .\n\n" ++ subjectStr triple.subject ++ " \n  " ++ triple.predicate ++ " ")
  | none => f.write.write (subjectStr triple.subject ++ " \n  " ++ triple.predicate ++ " ")

/-- `TriplesFormatter::format` (lines 72-109). All writes happen first
(`formatHead`, then `fmt_object`); only after the last write succeeds are
`current_subject`, `current_subject_type` and `current_predicate` updated
(lines 94-106). On an `io::Error` the partial writes stay in the sink and
the three state fields are untouched, matching `&mut self` plus `?`. -/
def TurtleFormatterWithPrefixes.format (f : TurtleFormatterWithPrefixes) (triple : Triple) :
    TurtleFormatterWithPrefixes × Except String Unit :=
  match andThen (formatHead f triple) fun sk => fmt_object triple.object sk with
  | (sk, .ok _) =>
    ({ write := sk
       current_subject := subjectStr triple.subject
       current_subject_type := some (subjectKind triple.subject)
       current_predicate := triple.predicate }, .ok ())
  | (sk, .error e) => ({ f with write := sk }, .error e)

/-- A caller's loop feeding an ordered triple stream, one `format` call per
triple (the sole per-triple operation). -/
def runFormat (f : TurtleFormatterWithPrefixes) : List Triple → TurtleFormatterWithPrefixes
  | [] => f
  | t :: ts => runFormat (f.format t).1 ts

/-! ### parser.rs -/

/-- `RawType` (parser.rs, lines 5-11). -/
inductive RawType where
  | Cbor
  | Json
  | Msgpack
  | Unknown
deriving DecidableEq, Repr

/-- The raw side of an `Individual` as used by parser.rs: `iraw.raw.data`
(bytes, each < 256 in the real program) and `iraw.raw.raw_type`. The
`Individual` type itself lives in `crate::individual`, outside this
repository's two source files; only these fields are touched here. -/
structure RawObj where
  data : List Nat
  raw_type : RawType
deriving DecidableEq, Repr

/-- The decoded side of an `Individual` as used by parser.rs: `iraw.obj.uri`. -/
structure IndividualObj where
  uri : String
deriving DecidableEq, Repr

/-- An `Individual`, restricted to the fields parser.rs reads or writes. -/
structure Individual where
  raw : RawObj
  obj : IndividualObj
deriving DecidableEq, Repr

/-- `MSGPACK_MAGIC_HEADER` (parser.rs, line 29). -/
def MSGPACK_MAGIC_HEADER : Nat := 146

/-- `parse_to_predicate` (parser.rs, lines 13-27). The two external
collaborators are parameters: `parse_msgpack_to_predicate` (from
`crate::msgpack2individual`) may mutate the individual and returns
`Result<(), String>`, carried as the mutated individual plus
`Except String Unit`; `parse_cbor_to_predicate` (from
`crate::cbor2individual`) may mutate the individual and returns a plain
`bool`. The result is the individual, the returned `bool`, and the lines
emitted through the `error!` log macro. -/
def parse_to_predicate
    (parse_msgpack_to_predicate : String → Individual → Individual × Except String Unit)
    (parse_cbor_to_predicate : String → Individual → Individual × Bool)
    (expect_predicate : String) (iraw : Individual) :
    Individual × Bool × List String :=
  if iraw.raw.raw_type = RawType.Msgpack then
    match parse_msgpack_to_predicate expect_predicate iraw with
    | (iraw', .error e) =>
      (iraw', false,
        if e.isEmpty then [] else ["parse for [" ++ expect_predicate ++ "], err=" ++ e])
    | (iraw', .ok _) => (iraw', true, [])
  else if iraw.raw.raw_type = RawType.Cbor then
    match parse_cbor_to_predicate expect_predicate iraw with
    | (iraw', b) => (iraw', b, [])
  else
    (iraw, false, [])

/-- The tag assignment of parser.rs lines 36-42: inspect the first byte
(`traw[0]`, total here as `headI` since the caller has checked non-emptiness)
and set `iraw.raw.raw_type` to `Msgpack` on the magic header, `Cbor`
otherwise. -/
def tagRaw (iraw : Individual) : Individual :=
  if iraw.raw.data.headI = MSGPACK_MAGIC_HEADER then
    { iraw with raw := { iraw.raw with raw_type := RawType.Msgpack } }
  else
    { iraw with raw := { iraw.raw with raw_type := RawType.Cbor } }

/-- `parse_raw` (parser.rs, lines 31-58). The external decode collaborators
`parse_msgpack` / `parse_cbor` take `&mut iraw.raw` and return
`Result<String, i8>`; per the decode-collaborator contract they read the
bytes and produce the URI or an error code, carried as
`RawObj → Except Int String`. -/
def parse_raw
    (parse_msgpack : RawObj → Except Int String)
    (parse_cbor : RawObj → Except Int String)
    (iraw : Individual) : Individual × Except Int Unit :=
  if iraw.raw.data.isEmpty then (iraw, .error (-1))
  else
    let iraw1 : Individual := tagRaw iraw
    let res : Except Int String :=
      if iraw1.raw.raw_type = RawType.Msgpack then parse_msgpack iraw1.raw
      else if iraw1.raw.raw_type = RawType.Cbor then parse_cbor iraw1.raw
      else .error (-1)
    match res with
    | .ok uri => ({ iraw1 with obj := { iraw1.obj with uri := uri } }, .ok ())
    | .error _ => (iraw1, .error (-1))

/-- The same dispatch with the final `else { Err(-1) }` arm of lines 44-50
removed: the CBOR collaborator is called whenever the MessagePack one is
not. `parse_raw` coincides with it on every input, which is what makes that
arm dead code. -/
def parse_raw_noFallback
    (parse_msgpack : RawObj → Except Int String)
    (parse_cbor : RawObj → Except Int String)
    (iraw : Individual) : Individual × Except Int Unit :=
  if iraw.raw.data.isEmpty then (iraw, .error (-1))
  else
    let iraw1 : Individual := tagRaw iraw
    let res : Except Int String :=
      if iraw1.raw.raw_type = RawType.Msgpack then parse_msgpack iraw1.raw
      else parse_cbor iraw1.raw
    match res with
    | .ok uri => ({ iraw1 with obj := { iraw1.obj with uri := uri } }, .ok ())
    | .error _ => (iraw1, .error (-1))

/-! ### Spec-side renderings (from the specification's words, for
refinement statements) -/

/-- The specification's escaping map for one character: newline, carriage
return, double quote and backslash turn into their two-character escapes,
every other character is left unchanged. -/
def escapeSpecChar (c : Char) : List Char :=
  if c = '\n' then ['\\', 'n']
  else if c = '\r' then ['\\', 'r']
  else if c = '"' then ['\\', '"']
  else if c = '\\' then ['\\', '\\']
  else [c]

/-- The specification's escaping, applied to every character of a lexical
value. -/
def escapeSpec (s : String) : List Char :=
  s.data.flatMap escapeSpecChar

/-- The specification's object rendering: Named → raw IRI, Blank → raw id,
Simple → quote, escaped value, quote; LanguageTagged → quote, escaped value,
quote, `@`, language; Typed → quote, escaped value, quote, `^^`, datatype
IRI. Language tags and datatype IRIs are not escaped. -/
def renderObjectSpec : Term → List Char
  | .NamedNode iri => iri.data
  | .BlankNode id => id.data
  | .Literal (.Simple v) => '"' :: escapeSpec v ++ ['"']
  | .Literal (.LanguageTaggedString v lang) =>
    '"' :: escapeSpec v ++ '"' :: '@' :: lang.data
  | .Literal (.Typed v dt) =>
    '"' :: escapeSpec v ++ '"' :: '^' :: '^' :: dt.data

/-- What any sequence of sink writes guarantees: the output only grows, the
sink's error text is never modified, and any error handed back is the sink's
own error text, unmodified. -/
def Extends (s0 : Sink) (r : Sink × Except String Unit) : Prop :=
  (∃ d, r.1.out = s0.out ++ d) ∧ r.1.errMsg = s0.errMsg ∧
    (∀ e, r.2 = .error e → e = s0.errMsg)

/-! ### Helper lemmas -/

/-- `toList` is the run of the iterator: it yields `next`'s character and
continues from `next`'s state. So the explicit lists above are exactly the
iterator's output. -/
theorem EscapeRdfState.toList_eq_run (st : EscapeRdfState) :
    st.toList =
      match st.next with
      | (none, _) => []
      | (some c, st') => c :: st'.toList := by
  cases st <;> simp [EscapeRdfState.next, EscapeRdfState.toList]

/-- `toList` has exactly the advertised `len`. -/
theorem EscapeRdfState.length_toList (st : EscapeRdfState) :
    st.toList.length = st.len := by
  cases st <;> simp [EscapeRdfState.toList, EscapeRdfState.len]


/-- A write against a sink that never fails appends the chunk and succeeds. -/
theorem Sink.write_none {s : Sink} (txt : String) (h : s.failAt = none) :
    s.write txt = ({ s with out := s.out ++ txt.data }, .ok ()) := by
  obtain ⟨o, fa, em⟩ := s
  simp only at h
  subst h
  rfl

/-- The per-character loop against a sink that never fails appends all the
characters and succeeds. -/
theorem writeChars_none {s : Sink} (cs : List Char) (h : s.failAt = none) :
    writeChars s cs = ({ s with out := s.out ++ cs }, .ok ()) := by
  induction cs generalizing s with
  | nil => simp [writeChars]
  | cons c cs ih =>
    rw [writeChars, Sink.write_none _ h]
    simp only []
    rw [ih (by simp [h])]
    simp [String.singleton]

/-- The two-phase iterator `EscapeRDF` produces, per input character, exactly
the specification's escape map. -/
theorem escape_char_eq (c : Char) : (EscapeRDF.new c).toList = escapeSpecChar c := by
  unfold EscapeRDF.new escapeSpecChar
  split_ifs <;> rfl

/-- `escape` coincides with the specification's escaping of the whole value. -/
theorem escape_eq (s : String) : escape s = escapeSpec s := by
  unfold escape escapeSpec
  simp [escape_char_eq]

/-- `fmt_object` against a sink that never fails appends exactly the
specification's rendering of the object and succeeds. -/
theorem fmt_object_none {s : Sink} (o : Term) (h : s.failAt = none) :
    fmt_object o s = ({ s with out := s.out ++ renderObjectSpec o }, .ok ()) := by
  cases o with
  | NamedNode iri => rw [fmt_object, Sink.write_none _ h]; rfl
  | BlankNode id => rw [fmt_object, Sink.write_none _ h]; rfl
  | Literal l =>
    cases l with
    | Simple v =>
      rw [fmt_object, Sink.write_none _ h]
      simp only [andThen]
      rw [writeChars_none _ (by simp [h])]
      simp only [andThen]
      rw [Sink.write_none _ (by simp [h])]
      simp [renderObjectSpec, escape_eq]
    | LanguageTaggedString v lang =>
      rw [fmt_object, Sink.write_none _ h]
      simp only [andThen]
      rw [writeChars_none _ (by simp [h])]
      simp only [andThen]
      rw [Sink.write_none _ (by simp [h])]
      simp [renderObjectSpec, escape_eq, String.data_append]
    | Typed v dt =>
      rw [fmt_object, Sink.write_none _ h]
      simp only [andThen]
      rw [writeChars_none _ (by simp [h])]
      simp only [andThen]
      rw [Sink.write_none _ (by simp [h])]
      simp [renderObjectSpec, escape_eq, String.data_append]

/-- Rust's derived equality between the reconstructed current subject and an
incoming subject holds iff variant and identifier both match. -/
theorem with_value_eq_iff (cst : NamedOrBlankNodeType) (cs : String) (sub : NamedOrBlankNode) :
    cst.with_value cs = sub ↔ (subjectKind sub = cst ∧ subjectStr sub = cs) := by
  cases cst <;> cases sub <;>
    simp [NamedOrBlankNodeType.with_value, subjectKind, subjectStr, eq_comm]

theorem extends_write (s : Sink) (txt : String) : Extends s (s.write txt) := by
  obtain ⟨o, fa, em⟩ := s
  cases fa with
  | none => exact ⟨⟨txt.data, rfl⟩, rfl, fun e he => by simp [Sink.write] at he⟩
  | some n =>
    cases n with
    | zero =>
      refine ⟨⟨[], by simp [Sink.write]⟩, by simp [Sink.write], ?_⟩
      intro e he
      simp [Sink.write] at he
      exact he.symm
    | succ m => exact ⟨⟨txt.data, rfl⟩, rfl, fun e he => by simp [Sink.write] at he⟩

theorem extends_trans {s0 s1 : Sink} {r : Sink × Except String Unit}
    (hout : ∃ d, s1.out = s0.out ++ d) (herr : s1.errMsg = s0.errMsg)
    (h2 : Extends s1 r) : Extends s0 r := by
  obtain ⟨d1, hd1⟩ := hout
  obtain ⟨⟨d2, hd2⟩, he2, herr2⟩ := h2
  exact ⟨⟨d1 ++ d2, by rw [hd2, hd1, List.append_assoc]⟩, by rw [he2, herr],
    fun e he => by rw [herr2 e he, herr]⟩

theorem extends_andThen {s0 : Sink} {r : Sink × Except String Unit}
    (h1 : Extends s0 r) {k : Sink → Sink × Except String Unit}
    (h2 : ∀ s, Extends s (k s)) : Extends s0 (andThen r k) := by
  rcases r with ⟨s1, res⟩
  cases res with
  | error e => exact h1
  | ok u =>
    cases u
    rw [andThen]
    exact extends_trans h1.1 h1.2.1 (h2 s1)

theorem extends_writeChars (s : Sink) (cs : List Char) : Extends s (writeChars s cs) := by
  induction cs generalizing s with
  | nil => exact ⟨⟨[], by simp [writeChars]⟩, by simp [writeChars], by simp [writeChars]⟩
  | cons c cs ih =>
    rw [writeChars]
    rcases hw : s.write (String.singleton c) with ⟨s1, res⟩
    have hext : Extends s (s1, res) := hw ▸ extends_write s (String.singleton c)
    cases res with
    | error e => exact hext
    | ok u =>
      cases u
      exact extends_trans hext.1 hext.2.1 (ih s1)

theorem extends_fmt_object (o : Term) (s : Sink) : Extends s (fmt_object o s) := by
  cases o with
  | NamedNode iri => exact extends_write s iri
  | BlankNode id => exact extends_write s id
  | Literal l =>
    cases l <;>
      exact extends_andThen (extends_write _ _) fun s1 =>
        extends_andThen (extends_writeChars _ _) fun s2 => extends_write _ _

theorem extends_formatHead (f : TurtleFormatterWithPrefixes) (t : Triple) :
    Extends f.write (formatHead f t) := by
  rw [formatHead]
  rcases f.current_subject_type with _ | cst
  · exact extends_write _ _
  · dsimp only []
    split_ifs <;> exact extends_write _ _

theorem extends_format (f : TurtleFormatterWithPrefixes) (t : Triple) :
    Extends f.write ((f.format t).1.write, (f.format t).2) := by
  have h : Extends f.write (andThen (formatHead f t) fun sk => fmt_object t.object sk) :=
    extends_andThen (extends_formatHead f t) fun s => extends_fmt_object t.object s
  rw [TurtleFormatterWithPrefixes.format]
  rcases hr : andThen (formatHead f t) fun sk => fmt_object t.object sk with ⟨sk, res⟩
  rw [hr] at h
  cases res with
  | error e => exact h
  | ok u => cases u; exact h

theorem andThen_ok {r : Sink × Except String Unit} (h : r.2 = .ok ())
    (k : Sink → Sink × Except String Unit) : andThen r k = k r.1 := by
  rcases r with ⟨s, res⟩
  cases res with
  | error e => simp at h
  | ok u => cases u; rw [andThen]

theorem formatHead_none {f : TurtleFormatterWithPrefixes} (t : Triple)
    (h : f.write.failAt = none) :
    (formatHead f t).2 = .ok () ∧ (formatHead f t).1.failAt = none := by
  rw [formatHead]
  rcases f.current_subject_type with _ | cst
  · dsimp only []
    rw [Sink.write_none _ h]
    exact ⟨rfl, h ▸ rfl⟩
  · dsimp only []
    split_ifs <;> rw [Sink.write_none _ h] <;> exact ⟨rfl, h ▸ rfl⟩

theorem fmt_object_none_failAt {s : Sink} (o : Term) (h : s.failAt = none) :
    (fmt_object o s).2 = .ok () ∧ (fmt_object o s).1.failAt = none := by
  rw [fmt_object_none o h]
  exact ⟨rfl, h ▸ rfl⟩

theorem format_none_ok {f : TurtleFormatterWithPrefixes} (t : Triple)
    (h : f.write.failAt = none) :
    (f.format t).2 = .ok () ∧ (f.format t).1.write.failAt = none := by
  have hh := formatHead_none t h
  have hchain : (andThen (formatHead f t) fun sk => fmt_object t.object sk) =
      fmt_object t.object (formatHead f t).1 := andThen_ok hh.1 _
  have hfo := fmt_object_none_failAt t.object hh.2
  rw [TurtleFormatterWithPrefixes.format, hchain]
  rcases hr : fmt_object t.object (formatHead f t).1 with ⟨sk, res⟩
  rw [hr] at hfo
  cases res with
  | error e => simp at hfo
  | ok u => cases u; exact ⟨rfl, hfo.2⟩

theorem format_ok_state {f : TurtleFormatterWithPrefixes} {t : Triple}
    (h : (f.format t).2 = .ok ()) :
    (f.format t).1.current_subject = subjectStr t.subject ∧
    (f.format t).1.current_subject_type = some (subjectKind t.subject) ∧
    (f.format t).1.current_predicate = t.predicate := by
  rw [TurtleFormatterWithPrefixes.format] at h ⊢
  rcases hr : andThen (formatHead f t) fun sk => fmt_object t.object sk with ⟨sk, res⟩
  cases res with
  | error e => rw [hr] at h; simp at h
  | ok u => cases u; exact ⟨rfl, rfl, rfl⟩

theorem format_err_state {f : TurtleFormatterWithPrefixes} {t : Triple} {e : String}
    (h : (f.format t).2 = .error e) :
    (f.format t).1.current_subject = f.current_subject ∧
    (f.format t).1.current_subject_type = f.current_subject_type ∧
    (f.format t).1.current_predicate = f.current_predicate := by
  rw [TurtleFormatterWithPrefixes.format]
  rcases hr : andThen (formatHead f t) fun sk => fmt_object t.object sk with ⟨sk, res⟩
  cases res with
  | error e2 => exact ⟨rfl, rfl, rfl⟩
  | ok u =>
    cases u
    rw [TurtleFormatterWithPrefixes.format, hr] at h
    simp at h

theorem charListLe_total : ∀ as bs : List Char,
    charListLe as bs = true ∨ charListLe bs as = true
  | [], _ => Or.inl rfl
  | _ :: _, [] => Or.inr rfl
  | a :: as, b :: bs => by
    rcases Nat.lt_trichotomy a.toNat b.toNat with h | h | h
    · exact Or.inl (by rw [charListLe, if_pos h])
    · rw [charListLe, charListLe, if_neg (by omega), if_neg (by omega),
        if_neg (by omega), if_neg (by omega)]
      exact charListLe_total as bs
    · exact Or.inr (by rw [charListLe, if_pos h])

theorem charListLe_trans : ∀ as bs cs : List Char,
    charListLe as bs = true → charListLe bs cs = true → charListLe as cs = true
  | [], _, _, _, _ => rfl
  | _ :: _, [], _, h1, _ => by rw [charListLe] at h1; exact absurd h1 (by simp)
  | _ :: _, _ :: _, [], _, h2 => by rw [charListLe] at h2; exact absurd h2 (by simp)
  | a :: as, b :: bs, c :: cs, h1, h2 => by
    rcases Nat.lt_trichotomy a.toNat b.toNat with hab | hab | hab
    · rcases Nat.lt_trichotomy b.toNat c.toNat with hbc | hbc | hbc
      · rw [charListLe, if_pos (by omega)]
      · rw [charListLe, if_pos (by omega)]
      · rw [charListLe, if_neg (by omega), if_pos hbc] at h2
        exact absurd h2 (by simp)
    · rcases Nat.lt_trichotomy b.toNat c.toNat with hbc | hbc | hbc
      · rw [charListLe, if_pos (by omega)]
      · rw [charListLe, if_neg (by omega), if_neg (by omega)] at h1 h2
        rw [charListLe, if_neg (by omega), if_neg (by omega)]
        exact charListLe_trans as bs cs h1 h2
      · rw [charListLe, if_neg (by omega), if_pos hbc] at h2
        exact absurd h2 (by simp)
    · rw [charListLe, if_neg (by omega), if_pos hab] at h1
      exact absurd h1 (by simp)

theorem char_toNat_inj {a b : Char} (h : a.toNat = b.toNat) : a = b := by
  have := congrArg Char.ofNat h
  rwa [Char.ofNat_toNat, Char.ofNat_toNat] at this

theorem charListLe_antisymm : ∀ as bs : List Char,
    charListLe as bs = true → charListLe bs as = true → as = bs
  | [], [], _, _ => rfl
  | [], _ :: _, _, h2 => by rw [charListLe] at h2; exact absurd h2 (by simp)
  | _ :: _, [], h1, _ => by rw [charListLe] at h1; exact absurd h1 (by simp)
  | a :: as, b :: bs, h1, h2 => by
    rcases Nat.lt_trichotomy a.toNat b.toNat with hab | hab | hab
    · rw [charListLe, if_neg (by omega), if_pos hab] at h2
      exact absurd h2 (by simp)
    · rw [charListLe, if_neg (by omega), if_neg (by omega)] at h1 h2
      rw [char_toNat_inj hab, charListLe_antisymm as bs h1 h2]
    · rw [charListLe, if_neg (by omega), if_pos hab] at h1
      exact absurd h1 (by simp)

theorem sortedKeys_sorted (ps : List (String × String)) :
    List.Sorted (fun a b => stringByteLe a b = true) (sortedKeys ps) := by
  haveI : IsTotal String (fun a b : String => stringByteLe a b = true) :=
    ⟨fun a b => charListLe_total a.data b.data⟩
  haveI : IsTrans String (fun a b : String => stringByteLe a b = true) :=
    ⟨fun a b c => charListLe_trans a.data b.data c.data⟩
  exact List.sorted_insertionSort _ _

theorem sortedKeys_perm (ps : List (String × String)) :
    (sortedKeys ps).Perm (ps.map Prod.fst) :=
  List.perm_insertionSort _ _

theorem sortedKeys_perm_inv {ps ps' : List (String × String)} (hp : ps.Perm ps') :
    sortedKeys ps = sortedKeys ps' := by
  haveI : IsAntisymm String (fun a b : String => stringByteLe a b = true) := by
    constructor
    intro a b h1 h2
    cases a with
    | mk da =>
      cases b with
      | mk db =>
        rw [stringByteLe] at h1 h2
        exact congrArg String.mk (charListLe_antisymm da db h1 h2)
  refine List.eq_of_perm_of_sorted ?_ (sortedKeys_sorted ps) (sortedKeys_sorted ps')
  exact ((sortedKeys_perm ps).trans (hp.map Prod.fst)).trans (sortedKeys_perm ps').symm

theorem lookup_eq_of_perm {l1 l2 : List (String × String)}
    (hp : l1.Perm l2) (hnd : (l1.map Prod.fst).Nodup) (k : String) :
    l1.lookup k = l2.lookup k := by
  induction hp with
  | nil => rfl
  | cons x t ih =>
    simp only [List.map_cons, List.nodup_cons] at hnd
    rcases x with ⟨a, b⟩
    simp only [List.lookup]
    cases h : k == a
    · exact ih hnd.2
    · rfl
  | swap x y t =>
    rcases x with ⟨a, b⟩
    rcases y with ⟨c, d⟩
    simp only [List.map_cons, List.nodup_cons, List.mem_cons] at hnd
    have hne : c ≠ a := fun h => hnd.1 (Or.inl h)
    simp only [List.lookup]
    cases h1 : k == a <;> cases h2 : k == c <;> try rfl
    exact absurd (by rw [← eq_of_beq h1, ← eq_of_beq h2]) hne
  | trans p1 p2 ih1 ih2 =>
    have hnd2 : (_ : List String).Nodup := ((p1.map Prod.fst).nodup_iff).mp hnd
    rw [ih1 hnd, ih2 hnd2]

theorem writePrefixLines_none {f : Sink} (ps : List (String × String))
    (ks : List String) (h : f.failAt = none) :
    writePrefixLines f ps ks =
      ({ f with out := f.out ++ (ks.flatMap fun k => (prefixLineText ps k).data) },
        .ok ()) := by
  induction ks generalizing f with
  | nil => simp [writePrefixLines]
  | cons k ks ih =>
    rw [writePrefixLines, Sink.write_none _ h]
    dsimp only []
    rw [ih (by simp [h])]
    simp

theorem write_prefixes_none {f : Sink} (ps : List (String × String))
    (h : f.failAt = none) :
    write_prefixes f ps =
      ({ f with out :=
          f.out ++ ((sortedKeys ps).flatMap fun k => (prefixLineText ps k).data)
            ++ ['\n'] },
        .ok ()) := by
  rw [write_prefixes, writePrefixLines_none ps _ h]
  dsimp only [andThen]
  rw [Sink.write_none _ (by simp [h])]

theorem writePrefixLines_congr {ps ps' : List (String × String)}
    (hl : ∀ k, ps.lookup k = ps'.lookup k) {f : Sink} (ks : List String) :
    writePrefixLines f ps ks = writePrefixLines f ps' ks := by
  induction ks generalizing f with
  | nil => rfl
  | cons k ks ih =>
    have hline : prefixLineText ps k = prefixLineText ps' k := by
      rw [prefixLineText, prefixLineText, hl k]
    rw [writePrefixLines, writePrefixLines, hline]
    rcases f.write (prefixLineText ps' k) with ⟨f1, res⟩
    cases res with
    | error e => rfl
    | ok u => cases u; exact ih

theorem write_prefixes_perm_inv {ps ps' : List (String × String)} (hp : ps.Perm ps')
    (hnd : (ps.map Prod.fst).Nodup) (f : Sink) :
    write_prefixes f ps = write_prefixes f ps' := by
  rw [write_prefixes, write_prefixes, sortedKeys_perm_inv hp,
    writePrefixLines_congr (fun k => lookup_eq_of_perm hp hnd k)]

theorem extends_writePrefixLines (f : Sink) (ps : List (String × String))
    (ks : List String) : Extends f (writePrefixLines f ps ks) := by
  induction ks generalizing f with
  | nil => exact ⟨⟨[], by simp [writePrefixLines]⟩, by simp [writePrefixLines],
      by simp [writePrefixLines]⟩
  | cons k ks ih =>
    rw [writePrefixLines]
    rcases hw : f.write (prefixLineText ps k) with ⟨f1, res⟩
    have hext : Extends f (f1, res) := hw ▸ extends_write f (prefixLineText ps k)
    cases res with
    | error e => exact hext
    | ok u =>
      cases u
      exact extends_trans hext.1 hext.2.1 (ih f1)

theorem extends_write_prefixes (f : Sink) (ps : List (String × String)) :
    Extends f (write_prefixes f ps) :=
  extends_andThen (extends_writePrefixLines f ps (sortedKeys ps)) fun s =>
    extends_write s "\n"

theorem runFormat_append (f : TurtleFormatterWithPrefixes) (ts : List Triple)
    (t' : Triple) : runFormat f (ts ++ [t']) = ((runFormat f ts).format t').1 := by
  induction ts generalizing f with
  | nil => rfl
  | cons t ts ih => rw [List.cons_append, runFormat, runFormat, ih]

theorem runFormat_none {f : TurtleFormatterWithPrefixes} (ts : List Triple)
    (h : f.write.failAt = none) : (runFormat f ts).write.failAt = none := by
  induction ts generalizing f with
  | nil => exact h
  | cons t ts ih => exact ih ((format_none_ok t h).2)

/-! ### The claims -/

/-- Claim C1: `format`'s decision table. With the state Empty it emits
`<subject> \n  <predicate> <object>`; with a current subject equal to the
incoming one (same kind and identifier) and the same predicate IRI it emits
only `, <object>`; with the same subject but a different predicate it emits
` ;\n  <predicate> <object>`; with a different subject it emits
` .\n\n<subject> \n  <predicate> <object>`. Subject equality holds iff both
node kind and identifier match, so a Named and a Blank node with the same
identifier are differing subjects. -/
theorem C1_format_decision_table (f : TurtleFormatterWithPrefixes) (t : Triple)
    (h : f.write.failAt = none) :
    ((∀ cst cs sub, NamedOrBlankNodeType.with_value cst cs = sub ↔
        (subjectKind sub = cst ∧ subjectStr sub = cs)) ∧
      (∀ id, (NamedOrBlankNode.NamedNode id : NamedOrBlankNode) ≠
        NamedOrBlankNode.BlankNode id)) ∧
    (f.current_subject_type = none →
      (f.format t).1.write.out =
        f.write.out ++ (subjectStr t.subject ++ " \n  " ++ t.predicate ++ " ").data
          ++ renderObjectSpec t.object ∧
      (f.format t).2 = .ok ()) ∧
    (∀ cst, f.current_subject_type = some cst →
      (cst.with_value f.current_subject = t.subject → f.current_predicate = t.predicate →
        (f.format t).1.write.out =
          f.write.out ++ (", " : String).data ++ renderObjectSpec t.object ∧
        (f.format t).2 = .ok ()) ∧
      (cst.with_value f.current_subject = t.subject → f.current_predicate ≠ t.predicate →
        (f.format t).1.write.out =
          f.write.out ++ (" ;\n  " ++ t.predicate ++ " ").data
            ++ renderObjectSpec t.object ∧
        (f.format t).2 = .ok ()) ∧
      (cst.with_value f.current_subject ≠ t.subject →
        (f.format t).1.write.out =
          f.write.out
            ++ (" .\n\n" ++ subjectStr t.subject ++ " \n  " ++ t.predicate ++ " ").data
            ++ renderObjectSpec t.object ∧
        (f.format t).2 = .ok ())) := by
  refine ⟨⟨with_value_eq_iff, fun id heq => by simp at heq⟩, ?_, ?_⟩
  · intro h0
    rw [TurtleFormatterWithPrefixes.format]
    have hh : formatHead f t =
        f.write.write (subjectStr t.subject ++ " \n  " ++ t.predicate ++ " ") := by
      rw [formatHead, h0]
    rw [hh, Sink.write_none _ h]
    rw [andThen_ok rfl]
    dsimp only []
    rw [fmt_object_none _ (by simp [h])]
    simp [String.data_append]
  · intro cst hc
    refine ⟨?_, ?_, ?_⟩
    · intro hs hp
      rw [TurtleFormatterWithPrefixes.format]
      have hh : formatHead f t = f.write.write ", " := by
        rw [formatHead, hc]
        dsimp only []
        rw [if_pos hs, if_pos hp]
      rw [hh, Sink.write_none _ h, andThen_ok rfl]
      dsimp only []
      rw [fmt_object_none _ (by simp [h])]
      simp [String.data_append]
    · intro hs hp
      rw [TurtleFormatterWithPrefixes.format]
      have hh : formatHead f t = f.write.write (" ;\n  " ++ t.predicate ++ " ") := by
        rw [formatHead, hc]
        dsimp only []
        rw [if_pos hs, if_neg hp]
      rw [hh, Sink.write_none _ h, andThen_ok rfl]
      dsimp only []
      rw [fmt_object_none _ (by simp [h])]
      simp [String.data_append]
    · intro hs
      rw [TurtleFormatterWithPrefixes.format]
      have hh : formatHead f t =
          f.write.write
            (" .\n\n" ++ subjectStr t.subject ++ " \n  " ++ t.predicate ++ " ") := by
        rw [formatHead, hc]
        dsimp only []
        rw [if_neg hs]
      rw [hh, Sink.write_none _ h, andThen_ok rfl]
      dsimp only []
      rw [fmt_object_none _ (by simp [h])]
      simp [String.data_append]

/-- Witness for C1: the Empty-state branch at a concrete writer and triple. -/
theorem C1_format_decision_table_witness :
    ({ write := { out := [], failAt := none, errMsg := "" }, current_subject := "",
       current_subject_type := none, current_predicate := "" } :
      TurtleFormatterWithPrefixes).write.failAt = none ∧
    (({ write := { out := [], failAt := none, errMsg := "" }, current_subject := "",
        current_subject_type := none, current_predicate := "" } :
       TurtleFormatterWithPrefixes).format
      { subject := .NamedNode "s", predicate := "p",
        object := .Literal (.Simple "v") }).1.write.out =
      ("s \n  p " ++ "\"v\"").data :=
  ⟨rfl, by
    have := ((C1_format_decision_table
      { write := { out := [], failAt := none, errMsg := "" }, current_subject := "",
        current_subject_type := none, current_predicate := "" }
      { subject := .NamedNode "s", predicate := "p",
        object := .Literal (.Simple "v") } rfl).2.1 rfl).1
    simpa using this⟩


/-- Claim C2: end to end, with the single prefix mapping `ex` to
`http://ex.org/`, formatting the three triples
(`http://ex.org/s1`, `http://ex.org/p1`, `"v1"`),
(`http://ex.org/s1`, `http://ex.org/p1`, `"v2"`),
(`http://ex.org/s2`, `http://ex.org/p1`, `"v3"`) in order and finishing
writes to the sink exactly the claimed text and hands that sink back;
declared prefixes are never substituted into subject, predicate or object
text. -/
theorem C2_end_to_end :
    ((((TurtleFormatterWithPrefixes.new { out := [], failAt := none, errMsg := "" }
        [("ex", "http://ex.org/")]).format
        { subject := .NamedNode "http://ex.org/s1", predicate := "http://ex.org/p1",
          object := .Literal (.Simple "v1") }).1.format
        { subject := .NamedNode "http://ex.org/s1", predicate := "http://ex.org/p1",
          object := .Literal (.Simple "v2") }).1.format
        { subject := .NamedNode "http://ex.org/s2", predicate := "http://ex.org/p1",
          object := .Literal (.Simple "v3") }).1.finish =
      (⟨("@prefix ex: <http://ex.org/> .\n\nhttp://ex.org/s1 \n  http://ex.org/p1 \"v1\", \"v2\" .\n\nhttp://ex.org/s2 \n  http://ex.org/p1 \"v3\" .\n" : String).data, none, ""⟩,
        .ok ⟨("@prefix ex: <http://ex.org/> .\n\nhttp://ex.org/s1 \n  http://ex.org/p1 \"v1\", \"v2\" .\n\nhttp://ex.org/s2 \n  http://ex.org/p1 \"v3\" .\n" : String).data, none, ""⟩) := by
  rfl

/-- Claim C3: object rendering. `fmt_object` appends exactly the
specification's rendering (Named and Blank raw, literals quoted with the
escaped lexical value; language tags and datatype IRIs unescaped), and the
source's two-phase escape iterator realizes exactly the specification's
per-character map, applied to every character of the value. -/
theorem C3_object_rendering (o : Term) (s : Sink) (h : s.failAt = none) :
    fmt_object o s = ({ s with out := s.out ++ renderObjectSpec o }, .ok ()) ∧
    (∀ c, (EscapeRDF.new c).toList = escapeSpecChar c) ∧
    (∀ c, escapeSpecChar c =
      if c = '\n' then ['\\', 'n']
      else if c = '\r' then ['\\', 'r']
      else if c = '"' then ['\\', '"']
      else if c = '\\' then ['\\', '\\']
      else [c]) ∧
    (∀ v : String, escape v = v.data.flatMap escapeSpecChar) :=
  ⟨fmt_object_none o h, escape_char_eq, fun _ => rfl, escape_eq⟩

/-- Witness for C3: a language-tagged literal whose value contains a quote,
a backslash, a newline and a carriage return. -/
theorem C3_object_rendering_witness :
    ({ out := [], failAt := none, errMsg := "x" } : Sink).failAt = none ∧
    fmt_object (.Literal (.LanguageTaggedString "a\"b\\c\nd\re" "en"))
        { out := [], failAt := none, errMsg := "x" } =
      ({ out := ['"', 'a', '\\', '"', 'b', '\\', '\\', 'c', '\\', 'n', 'd', '\\', 'r',
          'e', '"', '@', 'e', 'n'], failAt := none, errMsg := "x" }, .ok ()) :=
  ⟨rfl, by
    have := (C3_object_rendering (.Literal (.LanguageTaggedString "a\"b\\c\nd\re" "en"))
      { out := [], failAt := none, errMsg := "x" } rfl).1
    rw [this]
    rfl⟩


theorem new_write_eq (sk : Sink) (ps : List (String × String)) :
    (TurtleFormatterWithPrefixes.new sk ps).write = (write_prefixes sk ps).1 := rfl

theorem new_state_empty (sk : Sink) (ps : List (String × String)) :
    (TurtleFormatterWithPrefixes.new sk ps).current_subject_type = none := rfl

theorem new_failAt {sk : Sink} (ps : List (String × String)) (h : sk.failAt = none) :
    (TurtleFormatterWithPrefixes.new sk ps).write.failAt = none := by
  rw [new_write_eq, write_prefixes_none ps h]
  exact h

/-- Claim C4: `finish` with state HasSubject emits exactly one trailing
` .\n`; with state Empty it emits nothing; in both cases the underlying sink
is returned. Consequently, finishing a writer that received zero triples
emits nothing beyond the prefix block, and with one or more triples exactly
one trailing ` .\n` is emitted. -/
theorem C4_finish (f : TurtleFormatterWithPrefixes) (h : f.write.failAt = none) :
    (f.current_subject_type.isSome = true →
      f.finish = ({ f.write with out := f.write.out ++ (" .\n" : String).data },
        .ok { f.write with out := f.write.out ++ (" .\n" : String).data })) ∧
    (f.current_subject_type = none →
      f.finish = (f.write, .ok f.write)) ∧
    (∀ sk ps, (TurtleFormatterWithPrefixes.new sk ps).finish =
      ((TurtleFormatterWithPrefixes.new sk ps).write,
        .ok (TurtleFormatterWithPrefixes.new sk ps).write)) ∧
    (∀ (sk : Sink) ps ts t', sk.failAt = none →
      (runFormat (TurtleFormatterWithPrefixes.new sk ps) (ts ++ [t'])).finish.1.out =
        (runFormat (TurtleFormatterWithPrefixes.new sk ps) (ts ++ [t'])).write.out
          ++ (" .\n" : String).data) := by
  refine ⟨?_, ?_, ?_, ?_⟩
  · intro hs
    rw [TurtleFormatterWithPrefixes.finish, if_pos hs, Sink.write_none _ h]
  · intro h0
    simp [TurtleFormatterWithPrefixes.finish, h0]
  · intro sk ps
    simp [TurtleFormatterWithPrefixes.finish, new_state_empty]
  · intro sk ps ts t' hsk
    have hfa := new_failAt ps hsk
    have hrn : (runFormat (TurtleFormatterWithPrefixes.new sk ps) ts).write.failAt = none :=
      runFormat_none ts hfa
    have hok := format_none_ok t' hrn
    have hst := format_ok_state hok.1
    rw [runFormat_append]
    rw [TurtleFormatterWithPrefixes.finish, if_pos (by rw [hst.2.1]; rfl),
      Sink.write_none _ hok.2]

/-- Witness for C4: finishing after one formatted triple appends ` .\n`. -/
theorem C4_finish_witness :
    ({ write := { out := ['x'], failAt := none, errMsg := "" }, current_subject := "s",
       current_subject_type := some NamedOrBlankNodeType.NamedNode,
       current_predicate := "p" } :
      TurtleFormatterWithPrefixes).write.failAt = none ∧
    ({ write := { out := ['x'], failAt := none, errMsg := "" }, current_subject := "s",
       current_subject_type := some NamedOrBlankNodeType.NamedNode,
       current_predicate := "p" } :
      TurtleFormatterWithPrefixes).finish =
      ({ out := ['x', ' ', '.', '\n'], failAt := none, errMsg := "" },
        .ok { out := ['x', ' ', '.', '\n'], failAt := none, errMsg := "" }) :=
  ⟨rfl, by
    have := (C4_finish
      { write := { out := ['x'], failAt := none, errMsg := "" }, current_subject := "s",
        current_subject_type := some NamedOrBlankNodeType.NamedNode,
        current_predicate := "p" } rfl).1 rfl
    rw [this]
    rfl⟩

/-- Claim C5: the writer-state invariant. The state is Empty at
construction; after every successful `format` it is unconditionally
HasSubject of that call's triple (kind, identifier, predicate IRI); a
`format` that fails with an `io::Error` leaves the state unchanged; a
non-Empty state is never reset to Empty by `format`; and over a run with no
I/O failure, the state after a non-empty stream mirrors the last (most
recently emitted) triple. -/
theorem C5_state_invariant (sk : Sink) (ps : List (String × String))
    (f : TurtleFormatterWithPrefixes) (t t' : Triple) (ts : List Triple) :
    ((TurtleFormatterWithPrefixes.new sk ps).current_subject_type = none) ∧
    ((f.format t).2 = .ok () →
      (f.format t).1.current_subject_type = some (subjectKind t.subject) ∧
      (f.format t).1.current_subject = subjectStr t.subject ∧
      (f.format t).1.current_predicate = t.predicate) ∧
    (∀ e, (f.format t).2 = .error e →
      (f.format t).1.current_subject_type = f.current_subject_type ∧
      (f.format t).1.current_subject = f.current_subject ∧
      (f.format t).1.current_predicate = f.current_predicate) ∧
    (f.current_subject_type ≠ none → (f.format t).1.current_subject_type ≠ none) ∧
    (f.write.failAt = none →
      (runFormat f (ts ++ [t'])).current_subject_type = some (subjectKind t'.subject) ∧
      (runFormat f (ts ++ [t'])).current_subject = subjectStr t'.subject ∧
      (runFormat f (ts ++ [t'])).current_predicate = t'.predicate) := by
  refine ⟨new_state_empty sk ps, ?_, ?_, ?_, ?_⟩
  · intro hok
    have hst := format_ok_state hok
    exact ⟨hst.2.1, hst.1, hst.2.2⟩
  · intro e herr
    have hst := format_err_state herr
    exact ⟨hst.2.1, hst.1, hst.2.2⟩
  · intro hne
    rcases hres : (f.format t).2 with e | u
    · have hst := format_err_state hres
      rw [hst.2.1]
      exact hne
    · cases u
      rw [(format_ok_state hres).2.1]
      simp
  · intro hfa
    have hrn : (runFormat f ts).write.failAt = none := runFormat_none ts hfa
    have hok := format_none_ok t' hrn
    have hst := format_ok_state hok.1
    rw [runFormat_append]
    exact ⟨hst.2.1, hst.1, hst.2.2⟩

/-- Witness for C5: a two-triple run from a fresh writer ends with the state
mirroring the second triple. -/
theorem C5_state_invariant_witness :
    ({ out := [], failAt := none, errMsg := "" } : Sink).failAt = none ∧
    (runFormat (TurtleFormatterWithPrefixes.new { out := [], failAt := none, errMsg := "" } [])
        ([{ subject := .NamedNode "s1", predicate := "p1", object := .BlankNode "b" }] ++
          [{ subject := .BlankNode "s2", predicate := "p2",
             object := .Literal (.Simple "v") }])).current_subject_type =
      some NamedOrBlankNodeType.BlankNode :=
  ⟨rfl, by
    have := ((C5_state_invariant { out := [], failAt := none, errMsg := "" } []
      (TurtleFormatterWithPrefixes.new { out := [], failAt := none, errMsg := "" } [])
      { subject := .NamedNode "s1", predicate := "p1", object := .BlankNode "b" }
      { subject := .BlankNode "s2", predicate := "p2", object := .Literal (.Simple "v") }
      [{ subject := .NamedNode "s1", predicate := "p1",
         object := .BlankNode "b" }]).2.2.2.2 rfl).1
    simpa using this⟩


theorem finish_err (f : TurtleFormatterWithPrefixes) :
    (∀ e, f.finish.2 = .error e → e = f.write.errMsg) ∧
    (∃ d, f.finish.1.out = f.write.out ++ d) ∧
    f.finish.1.errMsg = f.write.errMsg := by
  rw [TurtleFormatterWithPrefixes.finish]
  rcases f.current_subject_type with _ | cst
  · exact ⟨fun e he => by simp at he, ⟨[], by simp⟩, rfl⟩
  · dsimp only [Option.isSome]
    rw [if_pos rfl]
    rcases hw : f.write.write " .\n" with ⟨s1, res⟩
    have hext : Extends f.write (s1, res) := hw ▸ extends_write f.write " .\n"
    cases res with
    | error e => exact ⟨fun e2 he2 => by cases he2; exact hext.2.2 e rfl, hext.1, hext.2.1⟩
    | ok u =>
      cases u
      exact ⟨fun e2 he2 => by simp at he2, hext.1, hext.2.1⟩

/-- Claim C6 does not hold as stated: `write_prefixes` is a public method of
the writer, so the prefix emission IS exposed as an operation callable after
construction — invoking it on the already-constructed writer's sink emits
the whole prefix block a second time. -/
theorem C6_counterexample :
    (write_prefixes
        (TurtleFormatterWithPrefixes.new { out := [], failAt := none, errMsg := "" }
          [("a", "http://a/")]).write [("a", "http://a/")]).1.out =
      ("@prefix a: <http://a/> .\n\n@prefix a: <http://a/> .\n\n" : String).data ∧
    ("@prefix a: <http://a/> .\n\n@prefix a: <http://a/> .\n\n" : String).data ≠
      ("@prefix a: <http://a/> .\n\n" : String).data :=
  ⟨by decide, by decide⟩

/-- Claim C6 (amended): construction immediately emits one `@prefix` line
per table entry, sorted ascending by short name (byte order) regardless of
insertion order, followed by exactly one blank line; the constructor
performs this emission exactly once, but the emission routine is a public
method that can also be invoked again after construction. -/
theorem C6_prefix_emission (sk : Sink) (ps ps' : List (String × String))
    (h : sk.failAt = none) :
    (write_prefixes sk ps =
      ({ sk with out := sk.out
          ++ ((sortedKeys ps).flatMap fun k => (prefixLineText ps k).data) ++ ['\n'] },
        .ok ())) ∧
    List.Sorted (fun a b => stringByteLe a b = true) (sortedKeys ps) ∧
    (sortedKeys ps).Perm (ps.map Prod.fst) ∧
    (ps.Perm ps' → (ps.map Prod.fst).Nodup →
      write_prefixes sk ps = write_prefixes sk ps') ∧
    (TurtleFormatterWithPrefixes.new sk ps).write = (write_prefixes sk ps).1 :=
  ⟨write_prefixes_none ps h, sortedKeys_sorted ps, sortedKeys_perm ps,
    fun hp hnd => write_prefixes_perm_inv hp hnd sk, rfl⟩

/-- Witness for C6 (amended): the two-entry table of the specification,
inserted in reverse order, emits the `a` line before the `b` line. -/
theorem C6_prefix_emission_witness :
    ({ out := [], failAt := none, errMsg := "" } : Sink).failAt = none ∧
    ([("b", "http://b/"), ("a", "http://a/")] :
        List (String × String)).Perm [("a", "http://a/"), ("b", "http://b/")] ∧
    ((([("b", "http://b/"), ("a", "http://a/")] :
        List (String × String)).map Prod.fst).Nodup) ∧
    write_prefixes { out := [], failAt := none, errMsg := "" }
        [("b", "http://b/"), ("a", "http://a/")] =
      write_prefixes { out := [], failAt := none, errMsg := "" }
        [("a", "http://a/"), ("b", "http://b/")] ∧
    (write_prefixes { out := [], failAt := none, errMsg := "" }
        [("b", "http://b/"), ("a", "http://a/")]).1.out =
      ("@prefix a: <http://a/> .\n@prefix b: <http://b/> .\n\n" : String).data :=
  ⟨rfl, by decide, by decide,
    (C6_prefix_emission { out := [], failAt := none, errMsg := "" }
      [("b", "http://b/"), ("a", "http://a/")]
      [("a", "http://a/"), ("b", "http://b/")] rfl).2.2.2.1 (by decide) (by decide),
    by decide⟩


/-- Claim C7 does not hold as stated: the prefix emission performed at
construction hits an `io::Error` (the sink fails at its very first write,
with error text `disk full`), yet `new` completes normally — its result is
an ordinary writer, the error value reaches no caller, because the source
discards it with `unwrap_or_default()`. -/
theorem C7_counterexample :
    (write_prefixes ({ out := [], failAt := some 0, errMsg := "disk full" } : Sink)
        [("a", "http://a/")]).2 = .error "disk full" ∧
    TurtleFormatterWithPrefixes.new { out := [], failAt := some 0, errMsg := "disk full" }
        [("a", "http://a/")] =
      { write := { out := [], failAt := some 0, errMsg := "disk full" },
        current_subject := "", current_subject_type := none, current_predicate := "" } :=
  ⟨rfl, rfl⟩

/-- Claim C7 (amended): an `io::Error` from the sink during `format`,
`finish` or a direct `write_prefixes` call is terminal for that call and
propagates unmodified (it is exactly the sink's own error value); the
failing call performs no retry and bytes already written before the failure
remain in the sink. The prefix emission run by the constructor, however,
has its error discarded (`unwrap_or_default()`): `new` always returns a
writer whose sink holds whatever `write_prefixes` managed to write. -/
theorem C7_io_error_propagation (f : TurtleFormatterWithPrefixes) (t : Triple)
    (sk : Sink) (ps : List (String × String)) :
    (∀ e, (f.format t).2 = .error e → e = f.write.errMsg) ∧
    (∃ d, (f.format t).1.write.out = f.write.out ++ d) ∧
    (f.format t).1.write.errMsg = f.write.errMsg ∧
    (∀ e, f.finish.2 = .error e → e = f.write.errMsg) ∧
    (∃ d, f.finish.1.out = f.write.out ++ d) ∧
    (∀ e, (write_prefixes sk ps).2 = .error e → e = sk.errMsg) ∧
    (∃ d, (write_prefixes sk ps).1.out = sk.out ++ d) ∧
    (TurtleFormatterWithPrefixes.new sk ps).write = (write_prefixes sk ps).1 := by
  have hf := extends_format f t
  have hfin := finish_err f
  have hwp := extends_write_prefixes sk ps
  exact ⟨hf.2.2, hf.1, hf.2.1, hfin.1, hfin.2.1, hwp.2.2, hwp.1, rfl⟩

/-- Witness for C7 (amended): a `format` call against a sink that fails on
its first write returns the sink's own error text, keeps the bytes already
written, and leaves the writer state untouched. -/
theorem C7_io_error_propagation_witness :
    (({ write := { out := ['x'], failAt := some 0, errMsg := "boom" },
        current_subject := "", current_subject_type := none, current_predicate := "" } :
      TurtleFormatterWithPrefixes).format
        { subject := .NamedNode "s", predicate := "p",
          object := .Literal (.Simple "v") }).2 = .error "boom" ∧
    "boom" =
      ({ write := { out := ['x'], failAt := some 0, errMsg := "boom" },
         current_subject := "", current_subject_type := none, current_predicate := "" } :
        TurtleFormatterWithPrefixes).write.errMsg ∧
    (∃ d, (({ write := { out := ['x'], failAt := some 0, errMsg := "boom" },
              current_subject := "", current_subject_type := none,
              current_predicate := "" } :
      TurtleFormatterWithPrefixes).format
        { subject := .NamedNode "s", predicate := "p",
          object := .Literal (.Simple "v") }).1.write.out = ['x'] ++ d) :=
  ⟨rfl,
    (C7_io_error_propagation
      { write := { out := ['x'], failAt := some 0, errMsg := "boom" },
        current_subject := "", current_subject_type := none, current_predicate := "" }
      { subject := .NamedNode "s", predicate := "p", object := .Literal (.Simple "v") }
      { out := [], failAt := none, errMsg := "" } []).1 "boom" rfl,
    (C7_io_error_propagation
      { write := { out := ['x'], failAt := some 0, errMsg := "boom" },
        current_subject := "", current_subject_type := none, current_predicate := "" }
      { subject := .NamedNode "s", predicate := "p", object := .Literal (.Simple "v") }
      { out := [], failAt := none, errMsg := "" } []).2.1⟩


theorem string_isEmpty_false {e : String} (h : e ≠ "") : e.isEmpty = false := by
  rw [Bool.eq_false_iff]
  intro hx
  exact h ((String.isEmpty_iff e).mp hx)

theorem tagRaw_msgpack {ind : Individual} (h : ind.raw.data.headI = MSGPACK_MAGIC_HEADER) :
    tagRaw ind = { ind with raw := { ind.raw with raw_type := RawType.Msgpack } } := by
  rw [tagRaw, if_pos h]

theorem tagRaw_cbor {ind : Individual} (h : ¬ ind.raw.data.headI = MSGPACK_MAGIC_HEADER) :
    tagRaw ind = { ind with raw := { ind.raw with raw_type := RawType.Cbor } } := by
  rw [tagRaw, if_neg h]

/-- Claim C8: `parse_raw` on an empty buffer fails with the generic error
and touches nothing (the encoding tag stays as it was); a first byte of 146
selects the MessagePack decode path, any other first byte selects the CBOR
decode path (no positive CBOR check); on successful decode the chosen
encoding tag and the decoded URI are recorded on the individual and `Ok` is
returned; on decode failure the one generic error value `-1` is returned no
matter what error value the collaborator produced. -/
theorem C8_parse_raw_dispatch
    (pm pc : RawObj → Except Int String) (ind : Individual) :
    (ind.raw.data = [] → parse_raw pm pc ind = (ind, .error (-1))) ∧
    (∀ b rest, ind.raw.data = b :: rest →
      (b = 146 →
        (∀ uri, pm { ind.raw with raw_type := RawType.Msgpack } = .ok uri →
          parse_raw pm pc ind =
            ({ raw := { ind.raw with raw_type := RawType.Msgpack },
               obj := { uri := uri } }, .ok ())) ∧
        (∀ e, pm { ind.raw with raw_type := RawType.Msgpack } = .error e →
          parse_raw pm pc ind =
            ({ ind with raw := { ind.raw with raw_type := RawType.Msgpack } },
              .error (-1)))) ∧
      (b ≠ 146 →
        (∀ uri, pc { ind.raw with raw_type := RawType.Cbor } = .ok uri →
          parse_raw pm pc ind =
            ({ raw := { ind.raw with raw_type := RawType.Cbor },
               obj := { uri := uri } }, .ok ())) ∧
        (∀ e, pc { ind.raw with raw_type := RawType.Cbor } = .error e →
          parse_raw pm pc ind =
            ({ ind with raw := { ind.raw with raw_type := RawType.Cbor } },
              .error (-1))))) := by
  constructor
  · intro h0
    rw [parse_raw, if_pos (by rw [h0]; rfl)]
  · intro b rest hdata
    have hempty : ¬ (ind.raw.data.isEmpty = true) := by rw [hdata]; simp
    have hhead : ind.raw.data.headI = b := by rw [hdata]; rfl
    constructor
    · intro hb
      have htag := @tagRaw_msgpack ind (by rw [hhead, hb]; rfl)
      constructor
      · intro uri hok
        rw [parse_raw, if_neg hempty]
        dsimp only []
        rw [htag]
        dsimp only []
        rw [if_pos rfl, hok]
      · intro e herr
        rw [parse_raw, if_neg hempty]
        dsimp only []
        rw [htag]
        dsimp only []
        rw [if_pos rfl, herr]
    · intro hb
      have htag := @tagRaw_cbor ind (by rw [hhead]; exact fun hc => hb hc)
      constructor
      · intro uri hok
        rw [parse_raw, if_neg hempty]
        dsimp only []
        rw [htag]
        dsimp only []
        rw [if_neg (by intro hx; cases hx), if_pos rfl, hok]
      · intro e herr
        rw [parse_raw, if_neg hempty]
        dsimp only []
        rw [htag]
        dsimp only []
        rw [if_neg (by intro hx; cases hx), if_pos rfl, herr]

/-- Witness for C8: a buffer starting with the magic byte 146, a MessagePack
collaborator that succeeds with `u:ok`, and a CBOR collaborator that fails
with code 5; the tag and URI are recorded and `Ok` returned. -/
theorem C8_parse_raw_dispatch_witness :
    ({ raw := { data := [146, 7], raw_type := RawType.Unknown },
       obj := { uri := "" } } : Individual).raw.data = 146 :: [7] ∧
    parse_raw (fun _ => .ok "u:ok") (fun _ => .error 5)
        { raw := { data := [146, 7], raw_type := RawType.Unknown },
          obj := { uri := "" } } =
      ({ raw := { data := [146, 7], raw_type := RawType.Msgpack },
         obj := { uri := "u:ok" } }, .ok ()) :=
  ⟨rfl,
    (((C8_parse_raw_dispatch (fun _ => .ok "u:ok") (fun _ => .error 5)
      { raw := { data := [146, 7], raw_type := RawType.Unknown },
        obj := { uri := "" } }).2 146 [7] rfl).1 rfl).1 "u:ok" rfl⟩

/-- Claim C9: `parse_to_predicate` never raises. With an encoding tag that
is neither MessagePack nor CBOR it returns `false`, mutating nothing and
logging nothing. On the MessagePack path a collaborator failure yields
`false`, with one diagnostic line logged exactly when the collaborator's
error message is non-empty, and success yields `true`. On the CBOR path the
collaborator's boolean is returned directly, with no logging and no
not-found versus error distinction. -/
theorem C9_parse_to_predicate_contract
    (pmp : String → Individual → Individual × Except String Unit)
    (pcp : String → Individual → Individual × Bool)
    (p : String) (ind : Individual) :
    (ind.raw.raw_type ≠ RawType.Msgpack → ind.raw.raw_type ≠ RawType.Cbor →
      parse_to_predicate pmp pcp p ind = (ind, false, [])) ∧
    (ind.raw.raw_type = RawType.Msgpack →
      (∀ ind' e, pmp p ind = (ind', .error e) → e ≠ "" →
        parse_to_predicate pmp pcp p ind =
          (ind', false, ["parse for [" ++ p ++ "], err=" ++ e])) ∧
      (∀ ind', pmp p ind = (ind', .error "") →
        parse_to_predicate pmp pcp p ind = (ind', false, [])) ∧
      (∀ ind' u, pmp p ind = (ind', .ok u) →
        parse_to_predicate pmp pcp p ind = (ind', true, []))) ∧
    (ind.raw.raw_type = RawType.Cbor →
      ∀ ind' b, pcp p ind = (ind', b) →
        parse_to_predicate pmp pcp p ind = (ind', b, [])) := by
  refine ⟨?_, ?_, ?_⟩
  · intro h1 h2
    rw [parse_to_predicate, if_neg h1, if_neg h2]
  · intro hm
    refine ⟨?_, ?_, ?_⟩
    · intro ind' e hcall hne
      rw [parse_to_predicate, if_pos hm, hcall]
      dsimp only []
      rw [string_isEmpty_false hne]
      rfl
    · intro ind' hcall
      rw [parse_to_predicate, if_pos hm, hcall]
      rfl
    · intro ind' u hcall
      cases u
      rw [parse_to_predicate, if_pos hm, hcall]
  · intro hc
    intro ind' b hcall
    have hnm : ind.raw.raw_type ≠ RawType.Msgpack := by rw [hc]; intro hx; cases hx
    rw [parse_to_predicate, if_neg hnm, if_pos hc, hcall]

/-- Witness for C9: on the MessagePack path, a collaborator error with a
non-empty message yields `false` and one log line. -/
theorem C9_parse_to_predicate_contract_witness :
    ({ raw := { data := [146], raw_type := RawType.Msgpack },
       obj := { uri := "" } } : Individual).raw.raw_type = RawType.Msgpack ∧
    parse_to_predicate
        (fun _ i => (i, .error "bad marker")) (fun _ i => (i, true)) "v-s:created"
        { raw := { data := [146], raw_type := RawType.Msgpack }, obj := { uri := "" } } =
      ({ raw := { data := [146], raw_type := RawType.Msgpack }, obj := { uri := "" } },
        false, ["parse for [v-s:created], err=bad marker"]) :=
  ⟨rfl,
    ((C9_parse_to_predicate_contract
      (fun _ i => (i, .error "bad marker")) (fun _ i => (i, true)) "v-s:created"
      { raw := { data := [146], raw_type := RawType.Msgpack },
        obj := { uri := "" } }).2.1 rfl).1 _ "bad marker" rfl (by decide)⟩

/-- Claim C10 (implicit): for every non-empty buffer `parse_raw` sets the
encoding tag to exactly Msgpack (first byte 146) or Cbor (any other first
byte) before invoking a decoder — the resulting individual carries that tag
whether or not the decode succeeded — and therefore the internal fallback
arm returning an error when the tag is neither is unreachable: `parse_raw`
coincides with the dispatch that lacks that arm. -/
theorem C10_fallback_unreachable
    (pm pc : RawObj → Except Int String) (ind : Individual)
    (h : ind.raw.data ≠ []) :
    ((parse_raw pm pc ind).1.raw.raw_type = RawType.Msgpack ∨
      (parse_raw pm pc ind).1.raw.raw_type = RawType.Cbor) ∧
    ((parse_raw pm pc ind).1.raw.raw_type = RawType.Msgpack ↔
      ind.raw.data.headI = MSGPACK_MAGIC_HEADER) ∧
    ((tagRaw ind).raw.raw_type = RawType.Msgpack ∨
      (tagRaw ind).raw.raw_type = RawType.Cbor) ∧
    parse_raw pm pc ind = parse_raw_noFallback pm pc ind := by
  have hempty : ¬ (ind.raw.data.isEmpty = true) := by
    intro hx
    exact h (List.isEmpty_iff.mp hx)
  by_cases hh : ind.raw.data.headI = MSGPACK_MAGIC_HEADER
  · have htag := @tagRaw_msgpack ind hh
    have hres : (parse_raw pm pc ind).1.raw.raw_type = RawType.Msgpack := by
      rw [parse_raw, if_neg hempty]
      dsimp only []
      rw [htag]
      dsimp only []
      rw [if_pos rfl]
      rcases hr : pm { ind.raw with raw_type := RawType.Msgpack } with e | uri <;> rfl
    refine ⟨Or.inl hres, ⟨fun _ => hh, fun _ => hres⟩, Or.inl (by rw [htag]), ?_⟩
    rw [parse_raw, parse_raw_noFallback, if_neg hempty, if_neg hempty]
    dsimp only []
    rw [htag]
    dsimp only []
    rw [if_pos rfl, if_pos rfl]
  · have htag := @tagRaw_cbor ind hh
    have hres : (parse_raw pm pc ind).1.raw.raw_type = RawType.Cbor := by
      rw [parse_raw, if_neg hempty]
      dsimp only []
      rw [htag]
      dsimp only []
      rw [if_neg (by intro hx; cases hx), if_pos rfl]
      rcases hr : pc { ind.raw with raw_type := RawType.Cbor } with e | uri <;> rfl
    refine ⟨Or.inr hres,
      ⟨fun hx => absurd hx (by rw [hres]; intro hy; cases hy), fun hx => absurd hx hh⟩,
      Or.inr (by rw [htag]), ?_⟩
    rw [parse_raw, parse_raw_noFallback, if_neg hempty, if_neg hempty]
    dsimp only []
    rw [htag]
    dsimp only []
    rw [if_neg (by intro hx; cases hx), if_pos rfl,
      if_neg (by intro hx; cases hx)]

/-- Witness for C10: a one-byte buffer `[0]` with both collaborators
failing; the tag still ends up Cbor and the fallback-free dispatch agrees. -/
theorem C10_fallback_unreachable_witness :
    ({ raw := { data := [0], raw_type := RawType.Unknown },
       obj := { uri := "" } } : Individual).raw.data ≠ [] ∧
    (parse_raw (fun _ => .error 3) (fun _ => .error 4)
        { raw := { data := [0], raw_type := RawType.Unknown },
          obj := { uri := "" } }).1.raw.raw_type = RawType.Cbor ∧
    parse_raw (fun _ => .error 3) (fun _ => .error 4)
        { raw := { data := [0], raw_type := RawType.Unknown }, obj := { uri := "" } } =
      parse_raw_noFallback (fun _ => .error 3) (fun _ => .error 4)
        { raw := { data := [0], raw_type := RawType.Unknown }, obj := { uri := "" } } :=
  ⟨by decide,
    (by
      rcases (C10_fallback_unreachable (fun _ => .error 3) (fun _ => .error 4)
        { raw := { data := [0], raw_type := RawType.Unknown },
          obj := { uri := "" } } (by decide)).1 with hm | hc
      · exact absurd hm (by decide)
      · exact hc),
    (C10_fallback_unreachable (fun _ => .error 3) (fun _ => .error 4)
      { raw := { data := [0], raw_type := RawType.Unknown },
        obj := { uri := "" } } (by decide)).2.2.2⟩

end VOnto
